import Mathlib

/-!
# Verification of the annotation geometry engine of `src/image_viewer.py`

A shallow embedding of the rectangle-annotation / zoom-pan core of the
image viewer.  Python floats are modelled by exact rationals (`ℚ`); the
places where the Python code casts to `int` (scroll-bar values, the
screen→image coordinate conversion) are modelled by truncation toward
zero, as Python's `int()` does.  Qt value types (`QRectF`, `QPoint`)
are embedded with the semantics of their Qt implementations.
-/

/-- Truncation toward zero, the semantics of Python's `int()` on a float. -/
def ratTrunc (q : ℚ) : ℤ :=
  if 0 ≤ q then ⌊q⌋ else ⌈q⌉

/-- A 2-D point with real-valued coordinates (Qt `QPointF`; a Qt `QPoint`
is embedded as a `QPointF` whose coordinates happen to be integers). -/
structure QPointF where
  x : ℚ
  y : ℚ
deriving DecidableEq

/-- Qt `QRectF`: stored as origin plus extent, both real-valued. -/
structure QRectF where
  x : ℚ
  y : ℚ
  w : ℚ
  h : ℚ
deriving DecidableEq

namespace QRectF

def left (r : QRectF) : ℚ := r.x
def top (r : QRectF) : ℚ := r.y
def right (r : QRectF) : ℚ := r.x + r.w
def bottom (r : QRectF) : ℚ := r.y + r.h

/-- One axis of Qt's `QRectF.contains(QPointF)`: interval from origin
`o` and (possibly negative, then flipped) extent `e`; a null interval
contains nothing, edges are inclusive. -/
def axisContains (o e c : ℚ) : Bool :=
  let lo := if e < 0 then o + e else o
  let hi := if e < 0 then o else o + e
  if lo = hi then false
  else if decide (c < lo) || decide (hi < c) then false
  else true

/-- `QRectF.contains(QPointF)` with Qt's semantics: the rectangle is
normalised (negative extents flipped), a null rectangle (zero width or
zero height) contains nothing, and edges are inclusive. -/
def containsPt (r : QRectF) (p : QPointF) : Bool :=
  axisContains r.x r.w p.x && axisContains r.y r.h p.y

/-- `QRectF.translate(dx, dy)`. -/
def translate (r : QRectF) (dx dy : ℚ) : QRectF :=
  { r with x := r.x + dx, y := r.y + dy }

end QRectF

/-- The four corner handles of a rectangle. -/
inductive Corner where
  | top_left
  | top_right
  | bottom_left
  | bottom_right
deriving DecidableEq

/-- An RGBA color; channels as produced by `QColor(r, g, b, a)`. -/
structure RGBA where
  r : ℕ
  g : ℕ
  b : ℕ
  a : ℕ
deriving DecidableEq

/-- The `Rectangle` class: geometry plus metadata.  The Python
constructor draws a random RGB triple when no color is given; the draw
is modelled by passing the drawn triple in explicitly. -/
structure Rectangle where
  rect : QRectF
  name : String
  color : RGBA
  border_color : RGBA
  selected : Bool
deriving DecidableEq

namespace Rectangle

/-- `self.corner_size = 8`, the size of corner handles. -/
def corner_size : ℚ := 8

/-- `Rectangle.__init__` with the default name, the fill at alpha 180
and the border at alpha 255 built from the (randomly drawn or explicit)
RGB triple `c`. -/
def init (x y w h : ℚ) (c : ℕ × ℕ × ℕ) : Rectangle :=
  { rect := ⟨x, y, w, h⟩
    name := "Rectangle"
    color := ⟨c.1, c.2.1, c.2.2, 180⟩
    border_color := ⟨c.1, c.2.1, c.2.2, 255⟩
    selected := false }

/-- `Rectangle.contains_point`. -/
def contains_point (r : Rectangle) (p : QPointF) : Bool :=
  r.rect.containsPt p

/-- `Rectangle.get_corner_rect(corner, zoom_factor)`: the handle square
of side `corner_size / zoom_factor` centred on the given corner. -/
def get_corner_rect (r : Rectangle) (c : Corner) (zoom_factor : ℚ) : QRectF :=
  let size := corner_size / zoom_factor
  match c with
  | .top_left => ⟨r.rect.left - size / 2, r.rect.top - size / 2, size, size⟩
  | .top_right => ⟨r.rect.right - size / 2, r.rect.top - size / 2, size, size⟩
  | .bottom_left => ⟨r.rect.left - size / 2, r.rect.bottom - size / 2, size, size⟩
  | .bottom_right => ⟨r.rect.right - size / 2, r.rect.bottom - size / 2, size, size⟩

/-- `Rectangle.get_corner_at_point(point, zoom_factor)`: first corner
(in the order top_left, top_right, bottom_left, bottom_right) whose
handle square contains the point. -/
def get_corner_at_point (r : Rectangle) (p : QPointF) (zoom_factor : ℚ) : Option Corner :=
  [Corner.top_left, Corner.top_right, Corner.bottom_left, Corner.bottom_right].find?
    (fun c => (r.get_corner_rect c zoom_factor).containsPt p)

/-- `Rectangle.move(delta_x, delta_y)`. -/
def move (r : Rectangle) (dx dy : ℚ) : Rectangle :=
  { r with rect := r.rect.translate dx dy }

/-- `Rectangle.resize_corner(corner, new_x, new_y)`: move the two edges
adjacent to `corner`, then clamp to the 10-unit minimum size by pushing
the moved edge back out from the fixed one. -/
def resize_corner (r : Rectangle) (c : Corner) (new_x new_y : ℚ) : Rectangle :=
  let l0 := r.rect.left
  let t0 := r.rect.top
  let r0 := r.rect.right
  let b0 := r.rect.bottom
  let lrtb :=
    match c with
    | .top_left => (new_x, r0, new_y, b0)
    | .top_right => (l0, new_x, new_y, b0)
    | .bottom_left => (new_x, r0, t0, new_y)
    | .bottom_right => (l0, new_x, t0, new_y)
  let left := lrtb.1
  let right := lrtb.2.1
  let top := lrtb.2.2.1
  let bottom := lrtb.2.2.2
  let lr :=
    if right - left < 10 then
      if c = .top_right ∨ c = .bottom_right then (left, left + 10) else (right - 10, right)
    else (left, right)
  let tb :=
    if bottom - top < 10 then
      if c = .bottom_left ∨ c = .bottom_right then (top, top + 10) else (bottom - 10, bottom)
    else (top, bottom)
  { r with rect := ⟨lr.1, tb.1, lr.2 - lr.1, tb.2 - tb.1⟩ }

end Rectangle

/-! ## The `ImageViewer` widget state and its event handlers -/

/-- Mouse buttons relevant to the handlers. -/
inductive Button where
  | left
  | middle
deriving DecidableEq

/-- Cursor shapes set by the handlers. -/
inductive Cursor where
  | arrow
  | closedHand
  | cross
  | sizeFDiag
  | sizeBDiag
  | sizeAll
deriving DecidableEq

/-- The mutable state of an `ImageViewer` (plus the scroll bars of the
surrounding scroll area, whose integer values the viewer reads and
writes).  `emissions` counts `rectangles_changed.emit()` calls and
`display_updates` counts `update_display()` calls, so that notification
and redraw behaviour can be stated.  The selected rectangle is the
index of the referenced list element. -/
structure ViewerState where
  zoom_factor : ℚ
  image : Option (ℕ × ℕ)
  has_scroll_area : Bool
  h_value : ℤ
  v_value : ℤ
  last_mouse_pos : Option (ℤ × ℤ)
  is_panning : Bool
  rectangles : List Rectangle
  current_rect : Option Rectangle
  drawing_rect : Bool
  rect_start_pos : Option QPointF
  rect_counter : ℕ
  selected_rect : Option ℕ
  dragging_rect : Bool
  resizing_corner : Option Corner
  drag_start_pos : Option QPointF
  draw_mode : Bool
  cursor : Cursor
  emissions : ℕ
  display_updates : ℕ
deriving DecidableEq

/-- Replace the `i`-th element of a rectangle list by its image under
`f` (the functional rendering of mutating the referenced object). -/
def listModify (f : Rectangle → Rectangle) : List Rectangle → ℕ → List Rectangle
  | [], _ => []
  | r :: rs, 0 => f r :: rs
  | r :: rs, n + 1 => r :: listModify f rs n

/-- Set the `selected` flag of the `i`-th rectangle. -/
def setSelectedFlag (rs : List Rectangle) (i : ℕ) (b : Bool) : List Rectangle :=
  listModify (fun r => { r with selected := b }) rs i

/-- `paintEvent`: an image-space coordinate is mapped to display space
by scaling with the zoom factor. -/
def image_to_display (c : ℚ) (zoom_factor : ℚ) : ℚ :=
  c * zoom_factor

/-- `mousePressEvent` / `mouseMoveEvent`: a display (widget) coordinate
is mapped to image space by `int(c / self.zoom_factor)`. -/
def display_to_image (c : ℚ) (zoom_factor : ℚ) : ℤ :=
  ratTrunc (c / zoom_factor)

/-- The image-space `QPoint` built from an integer event position. -/
def toImagePos (pos : ℤ × ℤ) (zoom_factor : ℚ) : QPointF :=
  ⟨(display_to_image (pos.1 : ℚ) zoom_factor : ℚ),
   (display_to_image (pos.2 : ℚ) zoom_factor : ℚ)⟩

/-- The corner check of `mousePressEvent`/`mouseMoveEvent`: the
selected rectangle's `get_corner_at_point(image_pos, 1.0)` — the zoom
argument passed by the handlers is the literal `1.0`. -/
def press_corner_check (st : ViewerState) (image_pos : QPointF) : Option Corner :=
  match st.selected_rect with
  | none => none
  | some i =>
    match st.rectangles[i]? with
    | none => none
    | some r => r.get_corner_at_point image_pos 1

/-- The body hit-test loop of `mousePressEvent`
(`for rect_obj in reversed(self.rectangles): ...`), returning the
rectangle found. -/
def hit_test (rs : List Rectangle) (p : QPointF) : Option Rectangle :=
  rs.reverse.find? (fun r => r.contains_point p)

/-- The same loop, returning the index of the rectangle found (the
greatest index whose rectangle contains the point). -/
def hitIndex : List Rectangle → QPointF → Option ℕ
  | [], _ => none
  | r :: rs, p =>
    match hitIndex rs p with
    | some i => some (i + 1)
    | none => if r.contains_point p then some 0 else none

/-- One axis of the scroll-anchoring in `zoom_at_cursor`: normalise the
anchor within the old scaled size (defaulting to `0.5` for a
non-positive size), reproject into the new scaled size and truncate to
the integer scroll value being set. -/
def anchorScroll (scroll viewport : ℤ) (oldSize newSize : ℚ) : ℤ :=
  let old_pos : ℚ := (scroll : ℚ) + (viewport : ℚ)
  let norm := if 0 < oldSize then old_pos / oldSize else 1 / 2
  ratTrunc (norm * newSize - (viewport : ℚ))

/-- `ImageViewer.zoom_at_cursor(cursor_pos, zoom_delta)`.
`viewport_pos` is the cursor position mapped into the scroll-area
viewport (done by Qt in the source). -/
def zoom_at_cursor (st : ViewerState) (viewport_pos : ℤ × ℤ) (zoom_delta : ℤ) : ViewerState :=
  match st.image with
  | none => st
  | some dims =>
    if st.has_scroll_area = false then st
    else
      let old_zoom := st.zoom_factor
      let z1 := if 0 < zoom_delta then old_zoom * (6 / 5) else old_zoom / (6 / 5)
      let z := max (1 / 10) (min z1 10)
      if old_zoom = z then { st with zoom_factor := z }
      else
        { st with
          zoom_factor := z
          display_updates := st.display_updates + 1
          h_value := anchorScroll st.h_value viewport_pos.1 ((dims.1 : ℚ) * old_zoom) ((dims.1 : ℚ) * z)
          v_value := anchorScroll st.v_value viewport_pos.2 ((dims.2 : ℚ) * old_zoom) ((dims.2 : ℚ) * z) }

/-- The branch of `mousePressEvent` that selects a hit rectangle and
prepares dragging; emits `rectangles_changed` only if the selection
actually changed. -/
def pressSelect (st : ViewerState) (image_pos : QPointF) (i : ℕ) : ViewerState :=
  let rs1 :=
    match st.selected_rect with
    | some j => setSelectedFlag st.rectangles j false
    | none => st.rectangles
  { st with
    rectangles := setSelectedFlag rs1 i true
    selected_rect := some i
    dragging_rect := true
    drag_start_pos := some image_pos
    emissions := st.emissions + (if st.selected_rect = some i then 0 else 1) }

/-- The branch of `mousePressEvent` on empty space: deselect (emitting
if something was selected) and start panning. -/
def pressEmpty (st : ViewerState) (pos : ℤ × ℤ) : ViewerState :=
  let st1 :=
    match st.selected_rect with
    | some j =>
      { st with
        rectangles := setSelectedFlag st.rectangles j false
        selected_rect := none
        emissions := st.emissions + 1 }
    | none => st
  { st1 with is_panning := true, last_mouse_pos := some pos, cursor := .closedHand }

/-- `ImageViewer.mousePressEvent`.  `rgb` models the random RGB triple
drawn by the `Rectangle` constructor when drawing starts. -/
def mousePress (st : ViewerState) (pos : ℤ × ℤ) (button : Button) (rgb : ℕ × ℕ × ℕ) : ViewerState :=
  match st.image with
  | none => st
  | some _ =>
    let image_pos := toImagePos pos st.zoom_factor
    match button with
    | .middle => { st with is_panning := true, last_mouse_pos := some pos, cursor := .closedHand }
    | .left =>
      if st.draw_mode then
        { st with
          drawing_rect := true
          rect_start_pos := some image_pos
          current_rect := some (Rectangle.init image_pos.x image_pos.y 0 0 rgb) }
      else
        match press_corner_check st image_pos with
        | some c => { st with resizing_corner := some c, drag_start_pos := some image_pos }
        | none =>
          match hitIndex st.rectangles image_pos with
          | some i => pressSelect st image_pos i
          | none => pressEmpty st pos

/-- `mouseMoveEvent`, cursor-hint fallthrough: hover feedback from the
corner under the pointer, the rectangle body, or the draw mode. -/
def moveHover (st : ViewerState) (image_pos : QPointF) : ViewerState :=
  if st.draw_mode = false ∧ st.selected_rect.isSome then
    match press_corner_check st image_pos with
    | some .top_left => { st with cursor := .sizeFDiag }
    | some .bottom_right => { st with cursor := .sizeFDiag }
    | some .top_right => { st with cursor := .sizeBDiag }
    | some .bottom_left => { st with cursor := .sizeBDiag }
    | none =>
      match st.selected_rect.bind (fun i => st.rectangles[i]?) with
      | some r =>
        if r.contains_point image_pos then { st with cursor := .sizeAll }
        else { st with cursor := .arrow }
      | none => { st with cursor := .arrow }
  else if st.draw_mode then { st with cursor := .cross }
  else { st with cursor := .arrow }

/-- `mouseMoveEvent`, panning branch, then the hover fallthrough. -/
def movePan (st : ViewerState) (pos : ℤ × ℤ) (image_pos : QPointF) : ViewerState :=
  match st.is_panning, st.last_mouse_pos with
  | true, some lp =>
    let st1 := { st with last_mouse_pos := some pos }
    if st.has_scroll_area then
      { st1 with
        h_value := st.h_value - (pos.1 - lp.1)
        v_value := st.v_value - (pos.2 - lp.2) }
    else st1
  | _, _ => moveHover st image_pos

/-- `mouseMoveEvent`, dragging branch. -/
def moveDrag (st : ViewerState) (pos : ℤ × ℤ) (image_pos : QPointF) : ViewerState :=
  match st.dragging_rect, st.selected_rect, st.drag_start_pos with
  | true, some i, some d =>
    { st with
      rectangles := listModify (fun r => r.move (image_pos.x - d.x) (image_pos.y - d.y)) st.rectangles i
      drag_start_pos := some image_pos }
  | _, _, _ => movePan st pos image_pos

/-- `mouseMoveEvent`, resizing branch. -/
def moveResize (st : ViewerState) (pos : ℤ × ℤ) (image_pos : QPointF) : ViewerState :=
  match st.resizing_corner, st.selected_rect, st.drag_start_pos with
  | some c, some i, some _ =>
    { st with rectangles := listModify (fun r => r.resize_corner c image_pos.x image_pos.y) st.rectangles i }
  | _, _, _ => moveDrag st pos image_pos

/-- `mouseMoveEvent`, drawing branch: the in-progress rectangle spans
the press anchor and the current point. -/
def moveDraw (st : ViewerState) (pos : ℤ × ℤ) (image_pos : QPointF) : ViewerState :=
  match st.drawing_rect, st.current_rect, st.rect_start_pos with
  | true, some cr, some sp =>
    { st with
      current_rect := some { cr with rect :=
        ⟨min sp.x image_pos.x, min sp.y image_pos.y,
         |image_pos.x - sp.x|, |image_pos.y - sp.y|⟩ } }
  | _, _, _ => moveResize st pos image_pos

/-- `ImageViewer.mouseMoveEvent`: the branches in source order
(drawing, resizing, dragging, panning, hover feedback). -/
def mouseMove (st : ViewerState) (pos : ℤ × ℤ) : ViewerState :=
  match st.image with
  | none => st
  | some _ => moveDraw st pos (toImagePos pos st.zoom_factor)

/-- `mouseReleaseEvent`, drawing part: commit the in-progress rectangle
when both extents exceed 5, naming it `"Rectangle {rect_counter}"` and
bumping the counter; otherwise discard it silently. -/
def releaseDrawing (st : ViewerState) : ViewerState :=
  match st.drawing_rect, st.current_rect with
  | true, some cr =>
    let st1 :=
      if decide (5 < cr.rect.w) && decide (5 < cr.rect.h) then
        { st with
          rectangles := st.rectangles ++ [{ cr with name := "Rectangle " ++ toString st.rect_counter }]
          rect_counter := st.rect_counter + 1
          emissions := st.emissions + 1 }
      else st
    { st1 with drawing_rect := false, current_rect := none, rect_start_pos := none }
  | _, _ => st

/-- `mouseReleaseEvent`, end of a drag. -/
def releaseDrag (st : ViewerState) : ViewerState :=
  if st.dragging_rect then
    { st with dragging_rect := false, drag_start_pos := none, emissions := st.emissions + 1 }
  else st

/-- `mouseReleaseEvent`, end of a resize. -/
def releaseResize (st : ViewerState) : ViewerState :=
  match st.resizing_corner with
  | some _ => { st with resizing_corner := none, drag_start_pos := none, emissions := st.emissions + 1 }
  | none => st

/-- `mouseReleaseEvent`, end of a pan. -/
def releasePan (st : ViewerState) : ViewerState :=
  if st.is_panning then { st with is_panning := false, cursor := .arrow } else st

/-- `ImageViewer.mouseReleaseEvent`. -/
def mouseRelease (st : ViewerState) (button : Button) : ViewerState :=
  match button with
  | .left => releasePan (releaseResize (releaseDrag (releaseDrawing st)))
  | .middle => releasePan st

/-! ## `MainWindow` operations acting on the viewer state -/

/-- `MainWindow.on_coordinate_changed`: parse the four coordinate
fields (a parse failure of any of them aborts the whole edit) and, when
a rectangle is selected, set its bounds verbatim from the fields.  The
list/panel refresh is called directly; `rectangles_changed` is not
emitted. -/
def on_coordinate_changed (st : ViewerState) (xf yf wf hf : Option ℚ) : ViewerState :=
  match st.selected_rect with
  | none => st
  | some i =>
    match xf, yf, wf, hf with
    | some x, some y, some w, some h =>
      { st with rectangles := listModify (fun r => { r with rect := ⟨x, y, w, h⟩ }) st.rectangles i }
    | _, _, _, _ => st

/-- `MainWindow.clear_all_rectangles`: empty the set, drop the
selection, reset the name counter to 1. -/
def clear_all_rectangles (st : ViewerState) : ViewerState :=
  { st with rectangles := [], selected_rect := none, rect_counter := 1 }

/-- `MainWindow.delete_selected_rectangle`: remove the selected
rectangle (by identity, i.e. its index) from the list; the name counter
is untouched. -/
def delete_selected_rectangle (st : ViewerState) : ViewerState :=
  match st.selected_rect with
  | none => st
  | some i => { st with rectangles := st.rectangles.eraseIdx i, selected_rect := none }

/-- Modelled from the spec: the corner hit-test as §4.1 words it, with
tolerance `corner_size / zoom_factor` taken at the *current* zoom
factor of the viewer (the source handlers instead pass the literal
`1.0`); used to compare the spec's claim with `press_corner_check`. -/
def spec_corner_check (st : ViewerState) (image_pos : QPointF) : Option Corner :=
  match st.selected_rect with
  | none => none
  | some i =>
    match st.rectangles[i]? with
    | none => none
    | some r => r.get_corner_at_point image_pos st.zoom_factor

/-! ## Theorems -/

/-- The two edges opposite a corner — the edges a resize from that
corner must leave fixed. -/
def fixedEdges (c : Corner) (r : Rectangle) : ℚ × ℚ :=
  match c with
  | .top_left => (r.rect.right, r.rect.bottom)
  | .top_right => (r.rect.left, r.rect.bottom)
  | .bottom_left => (r.rect.right, r.rect.top)
  | .bottom_right => (r.rect.left, r.rect.top)

/-- A sequence of `resize_corner` calls. -/
def applyResizes (r : Rectangle) (ms : List (Corner × ℚ × ℚ)) : Rectangle :=
  ms.foldl (fun r m => r.resize_corner m.1 m.2.1 m.2.2) r

theorem resize_corner_single (r : Rectangle) (c : Corner) (nx ny : ℚ) :
    10 ≤ (r.resize_corner c nx ny).rect.w ∧ 10 ≤ (r.resize_corner c nx ny).rect.h ∧
      fixedEdges c (r.resize_corner c nx ny) = fixedEdges c r := by
  cases c <;>
    simp only [Rectangle.resize_corner, fixedEdges, QRectF.left, QRectF.top, QRectF.right,
      QRectF.bottom] <;>
    norm_num <;>
    split_ifs <;>
    refine ⟨by simp <;> linarith, by simp <;> linarith, ?_⟩ <;>
    simp_all [Prod.ext_iff]

theorem applyResizes_min (ms : List (Corner × ℚ × ℚ)) :
    ∀ (r : Rectangle) (m : Corner × ℚ × ℚ),
      10 ≤ (applyResizes r (m :: ms)).rect.w ∧ 10 ≤ (applyResizes r (m :: ms)).rect.h := by
  induction ms with
  | nil =>
    intro r m
    exact ⟨(resize_corner_single r m.1 m.2.1 m.2.2).1, (resize_corner_single r m.1 m.2.1 m.2.2).2.1⟩
  | cons m2 ms ih =>
    intro r m
    exact ih (r.resize_corner m.1 m.2.1 m.2.2) m2

/-- C2: every `resize_corner` call leaves the rectangle at least 10
units wide and tall and leaves the two edges opposite the manipulated
corner exactly where they were; consequently after any nonempty
sequence of `resize_corner` calls the minimum-size invariant holds. -/
theorem resize_corner_min_size_fixed_edges :
    (∀ (r : Rectangle) (c : Corner) (nx ny : ℚ),
      10 ≤ (r.resize_corner c nx ny).rect.w ∧ 10 ≤ (r.resize_corner c nx ny).rect.h ∧
        fixedEdges c (r.resize_corner c nx ny) = fixedEdges c r) ∧
    (∀ (r : Rectangle) (ms : List (Corner × ℚ × ℚ)), ms ≠ [] →
      10 ≤ (applyResizes r ms).rect.w ∧ 10 ≤ (applyResizes r ms).rect.h) := by
  refine ⟨resize_corner_single, ?_⟩
  intro r ms hms
  match ms, hms with
  | m :: ms, _ => exact applyResizes_min ms r m

/-- A concrete rectangle used to instantiate hypothesis-bearing
theorems. -/
def sampleRect : Rectangle := Rectangle.init 20 30 40 50 (120, 130, 140)

theorem resize_corner_min_size_fixed_edges_witness :
    ([((Corner.top_left : Corner), (100 : ℚ), (100 : ℚ))] ≠ ([] : List (Corner × ℚ × ℚ))) ∧
      (10 ≤ (applyResizes sampleRect [(Corner.top_left, 100, 100)]).rect.w ∧
        10 ≤ (applyResizes sampleRect [(Corner.top_left, 100, 100)]).rect.h) :=
  ⟨by decide, resize_corner_min_size_fixed_edges.2 sampleRect [(Corner.top_left, 100, 100)] (by decide)⟩

theorem ratTrunc_intCast (n : ℤ) : ratTrunc (n : ℚ) = n := by
  unfold ratTrunc
  split_ifs <;> simp

/-- C9: for every integer image-space coordinate and every zoom factor
in [0.1, 10], scaling to display space (`paintEvent`) and converting
back to image space (`int(c / zoom_factor)` in the pointer handlers)
returns the original coordinate exactly. -/
theorem display_image_round_trip (p : ℤ) (z : ℚ) (h1 : 1 / 10 ≤ z) (h2 : z ≤ 10) :
    display_to_image (image_to_display (p : ℚ) z) z = p := by
  have hz : z ≠ 0 := by
    intro h
    rw [h] at h1
    norm_num at h1
  unfold display_to_image image_to_display
  rw [mul_div_assoc, div_self hz, mul_one, ratTrunc_intCast]

theorem display_image_round_trip_witness :
    ((1 : ℚ) / 10 ≤ 3 ∧ (3 : ℚ) ≤ 10) ∧
      display_to_image (image_to_display ((7 : ℤ) : ℚ) 3) 3 = 7 :=
  ⟨⟨by norm_num, by norm_num⟩, display_image_round_trip 7 3 (by norm_num) (by norm_num)⟩

theorem zoom_bounds_aux (st : ViewerState) (v : ℤ × ℤ) (d : ℤ) (dims : ℕ × ℕ)
    (him : st.image = some dims) (hsc : st.has_scroll_area = true) :
    1 / 10 ≤ (zoom_at_cursor st v d).zoom_factor ∧ (zoom_at_cursor st v d).zoom_factor ≤ 10 := by
  unfold zoom_at_cursor
  rw [him, hsc]
  norm_num
  refine ⟨?_, ?_⟩ <;> split_ifs <;>
    first
      | exact le_max_left _ _
      | exact max_le (by norm_num) (min_le_right _ _)

theorem zoom_noop_top (st : ViewerState) (v : ℤ × ℤ) (d : ℤ) (dims : ℕ × ℕ)
    (him : st.image = some dims) (hsc : st.has_scroll_area = true)
    (hz : st.zoom_factor = 10) (hd : 0 < d) :
    zoom_at_cursor st v d = st := by
  unfold zoom_at_cursor
  rw [him, hsc]
  simp only [hz, if_pos hd]
  have h2 : (1 : ℚ) / 10 ⊔ ((10 : ℚ) * (6 / 5)) ⊓ 10 = 10 := by
    rw [min_def, max_def]
    norm_num
  rw [h2, if_pos rfl, ← hz, ← him, ← hsc]
  split_ifs <;> rfl

theorem zoom_noop_bottom (st : ViewerState) (v : ℤ × ℤ) (d : ℤ) (dims : ℕ × ℕ)
    (him : st.image = some dims) (hsc : st.has_scroll_area = true)
    (hz : st.zoom_factor = 1 / 10) (hd : d ≤ 0) :
    zoom_at_cursor st v d = st := by
  unfold zoom_at_cursor
  rw [him, hsc]
  have hd0 : ¬ 0 < d := by omega
  simp only [hz, if_neg hd0]
  have h2 : (1 : ℚ) / 10 ⊔ ((1 : ℚ) / 10 / (6 / 5)) ⊓ 10 = 1 / 10 := by
    rw [min_def, max_def]
    norm_num
  rw [h2, if_pos rfl, ← hz, ← him, ← hsc]
  split_ifs <;> rfl

/-- C4: on a loaded viewer with a scroll area, every `zoom_at_cursor`
call leaves the zoom factor in [0.1, 10]; and once a bound is reached a
further call in the same direction returns the state completely
unchanged — same zoom, same scroll values, same everything, and no
redraw (`update_display`) happens. -/
theorem zoom_at_cursor_clamped_and_boundary_noop
    (st : ViewerState) (v : ℤ × ℤ) (d : ℤ) (dims : ℕ × ℕ)
    (him : st.image = some dims) (hsc : st.has_scroll_area = true) :
    (1 / 10 ≤ (zoom_at_cursor st v d).zoom_factor ∧ (zoom_at_cursor st v d).zoom_factor ≤ 10) ∧
      (st.zoom_factor = 10 → 0 < d → zoom_at_cursor st v d = st) ∧
      (st.zoom_factor = 1 / 10 → d ≤ 0 → zoom_at_cursor st v d = st) :=
  ⟨zoom_bounds_aux st v d dims him hsc,
   fun hz hd => zoom_noop_top st v d dims him hsc hz hd,
   fun hz hd => zoom_noop_bottom st v d dims him hsc hz hd⟩

/-- A loaded viewer in its fresh interaction state, used to instantiate
hypothesis-bearing theorems at concrete inputs. -/
def baseState : ViewerState where
  zoom_factor := 1
  image := some (100, 100)
  has_scroll_area := true
  h_value := 0
  v_value := 0
  last_mouse_pos := none
  is_panning := false
  rectangles := []
  current_rect := none
  drawing_rect := false
  rect_start_pos := none
  rect_counter := 1
  selected_rect := none
  dragging_rect := false
  resizing_corner := none
  drag_start_pos := none
  draw_mode := false
  cursor := .arrow
  emissions := 0
  display_updates := 0

theorem zoom_at_cursor_clamped_and_boundary_noop_witness :
    (({ baseState with zoom_factor := 10 } : ViewerState).image = some (100, 100) ∧
        ({ baseState with zoom_factor := 10 } : ViewerState).has_scroll_area = true) ∧
      ((1 / 10 ≤ (zoom_at_cursor { baseState with zoom_factor := 10 } (0, 0) 120).zoom_factor ∧
          (zoom_at_cursor { baseState with zoom_factor := 10 } (0, 0) 120).zoom_factor ≤ 10) ∧
        (({ baseState with zoom_factor := 10 } : ViewerState).zoom_factor = 10 → (0 : ℤ) < 120 →
          zoom_at_cursor { baseState with zoom_factor := 10 } (0, 0) 120 = { baseState with zoom_factor := 10 }) ∧
        (({ baseState with zoom_factor := 10 } : ViewerState).zoom_factor = 1 / 10 → (120 : ℤ) ≤ 0 →
          zoom_at_cursor { baseState with zoom_factor := 10 } (0, 0) 120 = { baseState with zoom_factor := 10 })) :=
  ⟨⟨rfl, rfl⟩,
   zoom_at_cursor_clamped_and_boundary_noop { baseState with zoom_factor := 10 } (0, 0) 120 (100, 100) rfl rfl⟩

theorem hit_test_eq_getLast?_filter (rs : List Rectangle) (p : QPointF) :
    hit_test rs p = (rs.filter (fun r => r.contains_point p)).getLast? := by
  unfold hit_test
  induction rs using List.reverseRecOn with
  | nil => rfl
  | append_singleton l a ih =>
    rw [List.reverse_append, List.filter_append, List.getLast?_append]
    simp only [List.reverse_singleton, List.singleton_append, List.find?_cons]
    cases hfa : a.contains_point p with
    | true =>
      have hfilter : List.filter (fun r => r.contains_point p) [a] = [a] := by
        simp [List.filter, hfa]
      rw [hfilter]
      rfl
    | false =>
      have hfilter : List.filter (fun r => r.contains_point p) [a] = [] := by
        simp [List.filter, hfa]
      rw [hfilter]
      simp only [List.getLast?_nil, Option.none_or]
      exact ih

theorem hitIndex_lt_length (rs : List Rectangle) (p : QPointF) :
    ∀ i, hitIndex rs p = some i → i < rs.length := by
  induction rs with
  | nil =>
    intro i h
    have hn : hitIndex ([] : List Rectangle) p = none := rfl
    rw [hn] at h
    exact Option.noConfusion h
  | cons r l ih =>
    intro i h
    unfold hitIndex at h
    cases hl : hitIndex l p with
    | some j =>
      rw [hl] at h
      simp only [Option.some.injEq] at h
      have := ih j hl
      simp only [List.length_cons]
      omega
    | none =>
      rw [hl] at h
      by_cases hc : r.contains_point p = true
      · rw [if_pos hc] at h
        simp only [Option.some.injEq] at h
        simp only [List.length_cons]
        omega
      · rw [if_neg hc] at h
        exact Option.noConfusion h

theorem hitIndex_concat (l : List Rectangle) (a : Rectangle) (p : QPointF) :
    hitIndex (l ++ [a]) p =
      if a.contains_point p = true then some l.length else hitIndex l p := by
  induction l with
  | nil =>
    simp only [List.nil_append, hitIndex, List.length_nil]
  | cons r l ih =>
    rw [List.cons_append]
    simp only [hitIndex]
    rw [ih]
    cases hc : a.contains_point p with
    | true => simp
    | false => simp

theorem hitIndex_bind_eq_hit_test (rs : List Rectangle) (p : QPointF) :
    (hitIndex rs p).bind (fun i => rs[i]?) = hit_test rs p := by
  unfold hit_test
  induction rs using List.reverseRecOn with
  | nil => rfl
  | append_singleton l a ih =>
    rw [hitIndex_concat, List.reverse_append, List.reverse_singleton, List.singleton_append,
      List.find?_cons]
    cases hc : a.contains_point p with
    | true =>
      rw [if_pos rfl, Option.some_bind, List.getElem?_concat_length]
    | false =>
      rw [if_neg (by simp), ]
      cases hi : hitIndex l p with
      | none =>
        rw [hi] at ih
        simp only [Option.none_bind] at ih
        rw [Option.none_bind]
        exact ih
      | some j =>
        have hj := hitIndex_lt_length l p j hi
        rw [hi] at ih
        simp only [Option.some_bind] at ih
        rw [Option.some_bind, List.getElem?_append, if_pos hj]
        exact ih

/-- C6: the press-time body hit-test scans the rectangle list in
reverse creation order and returns the first rectangle containing the
point — i.e. the last-created (topmost) one among those containing it,
the last element of the filtered list; and the index form used by
`mousePressEvent` designates exactly that rectangle. -/
theorem hit_test_returns_topmost (rs : List Rectangle) (p : QPointF) :
    hit_test rs p = (rs.filter (fun r => r.contains_point p)).getLast? ∧
      (hitIndex rs p).bind (fun i => rs[i]?) = hit_test rs p :=
  ⟨hit_test_eq_getLast?_filter rs p, hitIndex_bind_eq_hit_test rs p⟩

theorem ratTrunc_abs_sub_le (q : ℚ) : |((ratTrunc q : ℤ) : ℚ) - q| ≤ 1 := by
  unfold ratTrunc
  split_ifs with h
  · have h1 : (⌊q⌋ : ℚ) ≤ q := Int.floor_le q
    have h2 : q - 1 < (⌊q⌋ : ℚ) := Int.sub_one_lt_floor q
    rw [abs_le]
    constructor <;> linarith
  · have h1 : q ≤ (⌈q⌉ : ℚ) := Int.le_ceil q
    have h2 : (⌈q⌉ : ℚ) < q + 1 := Int.ceil_lt_add_one q
    rw [abs_le]
    constructor <;> linarith

theorem anchorScroll_close (s v : ℤ) (W Wn : ℚ) (hW : 0 < W) (hWn : 0 < Wn) :
    |(((anchorScroll s v W Wn : ℤ) : ℚ) + (v : ℚ)) / Wn - ((s : ℚ) + (v : ℚ)) / W| ≤ 1 / Wn := by
  unfold anchorScroll
  dsimp only
  rw [if_pos hW]
  set norm : ℚ := ((s : ℚ) + (v : ℚ)) / W with hnorm
  set E : ℚ := norm * Wn - (v : ℚ) with hE
  have hEv : (E + (v : ℚ)) / Wn = norm := by
    rw [hE]
    field_simp
  have hdiff : (((ratTrunc E : ℤ) : ℚ) + (v : ℚ)) / Wn - norm
      = (((ratTrunc E : ℤ) : ℚ) - E) / Wn := by
    rw [← hEv, div_sub_div_same]
    ring_nf
  rw [hdiff, abs_div, abs_of_pos hWn]
  exact (div_le_div_iff_of_pos_right hWn).mpr (ratTrunc_abs_sub_le E)

/-- C1: in a zoom step that actually changes the zoom factor on a
loaded, positively-sized image, the new scroll value is set so that the
anchor's normalized position in the scaled image is preserved: per
axis, (new_scroll + viewport_offset) / new_scaled_size equals
(old_scroll + viewport_offset) / old_scaled_size up to the rounding of
the integer scroll value (tolerance 1 / new_scaled_size). -/
theorem zoom_at_cursor_anchor (st : ViewerState) (v : ℤ × ℤ) (d : ℤ) (iw ihh : ℕ)
    (him : st.image = some (iw, ihh)) (hsc : st.has_scroll_area = true)
    (hiw : 0 < iw) (hih : 0 < ihh) (hz : 0 < st.zoom_factor)
    (hch : (zoom_at_cursor st v d).zoom_factor ≠ st.zoom_factor) :
    |(((zoom_at_cursor st v d).h_value : ℚ) + (v.1 : ℚ)) /
          ((iw : ℚ) * (zoom_at_cursor st v d).zoom_factor) -
        ((st.h_value : ℚ) + (v.1 : ℚ)) / ((iw : ℚ) * st.zoom_factor)| ≤
      1 / ((iw : ℚ) * (zoom_at_cursor st v d).zoom_factor) ∧
    |(((zoom_at_cursor st v d).v_value : ℚ) + (v.2 : ℚ)) /
          ((ihh : ℚ) * (zoom_at_cursor st v d).zoom_factor) -
        ((st.v_value : ℚ) + (v.2 : ℚ)) / ((ihh : ℚ) * st.zoom_factor)| ≤
      1 / ((ihh : ℚ) * (zoom_at_cursor st v d).zoom_factor) := by
  have hform : zoom_at_cursor st v d =
      (let z1 := if 0 < d then st.zoom_factor * (6 / 5) else st.zoom_factor / (6 / 5)
       let z := max (1 / 10 : ℚ) (min z1 10)
       if st.zoom_factor = z then { st with zoom_factor := z }
       else
         { st with
           zoom_factor := z
           display_updates := st.display_updates + 1
           h_value := anchorScroll st.h_value v.1 ((iw : ℚ) * st.zoom_factor) ((iw : ℚ) * z)
           v_value := anchorScroll st.v_value v.2 ((ihh : ℚ) * st.zoom_factor) ((ihh : ℚ) * z) }) := by
    unfold zoom_at_cursor
    rw [him, hsc]
    norm_num
  rw [hform] at hch ⊢
  set z1 := if 0 < d then st.zoom_factor * (6 / 5) else st.zoom_factor / (6 / 5) with hz1
  set z := max (1 / 10 : ℚ) (min z1 10) with hzd
  have hzpos : 0 < z := lt_of_lt_of_le (by norm_num) (le_max_left _ _)
  by_cases hb : st.zoom_factor = z
  · rw [if_pos hb] at hch
    exact absurd hb.symm hch
  · rw [if_neg hb] at hch ⊢
    have hWpos : (0 : ℚ) < (iw : ℚ) * st.zoom_factor := by
      have : (0 : ℚ) < (iw : ℚ) := by exact_mod_cast hiw
      positivity
    have hWnpos : (0 : ℚ) < (iw : ℚ) * z := by
      have : (0 : ℚ) < (iw : ℚ) := by exact_mod_cast hiw
      positivity
    have hHpos : (0 : ℚ) < (ihh : ℚ) * st.zoom_factor := by
      have : (0 : ℚ) < (ihh : ℚ) := by exact_mod_cast hih
      positivity
    have hHnpos : (0 : ℚ) < (ihh : ℚ) * z := by
      have : (0 : ℚ) < (ihh : ℚ) := by exact_mod_cast hih
      positivity
    exact ⟨anchorScroll_close st.h_value v.1 _ _ hWpos hWnpos,
           anchorScroll_close st.v_value v.2 _ _ hHpos hHnpos⟩

theorem zoom_at_cursor_anchor_witness :
    (0 < (100 : ℕ) ∧ (0 : ℚ) < baseState.zoom_factor ∧
      (zoom_at_cursor baseState (10, 20) 120).zoom_factor ≠ baseState.zoom_factor) ∧
      |(((zoom_at_cursor baseState (10, 20) 120).h_value : ℚ) + ((10 : ℤ) : ℚ)) /
            ((100 : ℚ) * (zoom_at_cursor baseState (10, 20) 120).zoom_factor) -
          ((baseState.h_value : ℚ) + ((10 : ℤ) : ℚ)) / ((100 : ℚ) * baseState.zoom_factor)| ≤
        1 / ((100 : ℚ) * (zoom_at_cursor baseState (10, 20) 120).zoom_factor) :=
  ⟨⟨by decide, by norm_num [baseState], by norm_num [zoom_at_cursor, baseState]⟩,
   (zoom_at_cursor_anchor baseState (10, 20) 120 100 100 rfl rfl (by decide) (by decide)
      (by norm_num [baseState]) (by norm_num [zoom_at_cursor, baseState])).1⟩

/-- C10: neither a zoom step nor the panning branch of pointer move
touches the annotation state: the rectangle list (hence every
rectangle's bounds, name, colors and selected flag, and the list's
membership and order), the selection, the name counter, the in-progress
rectangle and the notification count are unchanged; only the zoom
factor, the scroll values and the pan bookkeeping may change. -/
theorem zoom_pan_annotation_frame (st : ViewerState) (v : ℤ × ℤ) (d : ℤ) (pos : ℤ × ℤ)
    (lp : ℤ × ℤ) (hdraw : st.drawing_rect = false) (hres : st.resizing_corner = none)
    (hdragf : st.dragging_rect = false) (hpan : st.is_panning = true)
    (hlast : st.last_mouse_pos = some lp) :
    ((zoom_at_cursor st v d).rectangles = st.rectangles ∧
      (zoom_at_cursor st v d).selected_rect = st.selected_rect ∧
      (zoom_at_cursor st v d).rect_counter = st.rect_counter ∧
      (zoom_at_cursor st v d).current_rect = st.current_rect ∧
      (zoom_at_cursor st v d).emissions = st.emissions) ∧
    ((mouseMove st pos).rectangles = st.rectangles ∧
      (mouseMove st pos).selected_rect = st.selected_rect ∧
      (mouseMove st pos).rect_counter = st.rect_counter ∧
      (mouseMove st pos).current_rect = st.current_rect ∧
      (mouseMove st pos).emissions = st.emissions ∧
      (mouseMove st pos).zoom_factor = st.zoom_factor) := by
  constructor
  · unfold zoom_at_cursor
    rcases hst : st.image with _ | dims
    · exact ⟨rfl, rfl, rfl, rfl, rfl⟩
    · dsimp only
      split_ifs <;> exact ⟨rfl, rfl, rfl, rfl, rfl⟩
  · unfold mouseMove
    rcases hst : st.image with _ | dims
    · exact ⟨rfl, rfl, rfl, rfl, rfl, rfl⟩
    · dsimp only
      unfold moveDraw moveResize moveDrag movePan
      rw [hdraw, hres, hdragf, hpan, hlast]
      dsimp only
      split_ifs <;> exact ⟨rfl, rfl, rfl, rfl, rfl, rfl⟩

/-- A viewer state in the middle of a pan, used to instantiate
hypothesis-bearing theorems at concrete inputs. -/
def panState : ViewerState :=
  { baseState with is_panning := true, last_mouse_pos := some (5, 5) }

theorem zoom_pan_annotation_frame_witness :
    (panState.drawing_rect = false ∧ panState.resizing_corner = none ∧
      panState.dragging_rect = false ∧ panState.is_panning = true ∧
      panState.last_mouse_pos = some (5, 5)) ∧
    (((zoom_at_cursor panState (0, 0) 120).rectangles = panState.rectangles ∧
        (zoom_at_cursor panState (0, 0) 120).selected_rect = panState.selected_rect ∧
        (zoom_at_cursor panState (0, 0) 120).rect_counter = panState.rect_counter ∧
        (zoom_at_cursor panState (0, 0) 120).current_rect = panState.current_rect ∧
        (zoom_at_cursor panState (0, 0) 120).emissions = panState.emissions) ∧
      ((mouseMove panState (7, 9)).rectangles = panState.rectangles ∧
        (mouseMove panState (7, 9)).selected_rect = panState.selected_rect ∧
        (mouseMove panState (7, 9)).rect_counter = panState.rect_counter ∧
        (mouseMove panState (7, 9)).current_rect = panState.current_rect ∧
        (mouseMove panState (7, 9)).emissions = panState.emissions ∧
        (mouseMove panState (7, 9)).zoom_factor = panState.zoom_factor)) :=
  ⟨⟨rfl, rfl, rfl, rfl, rfl⟩,
   zoom_pan_annotation_frame panState (0, 0) 120 (7, 9) (5, 5) rfl rfl rfl rfl rfl⟩

theorem listModify_getElem? (f : Rectangle → Rectangle) :
    ∀ (rs : List Rectangle) (k j : ℕ),
      (listModify f rs k)[j]? = if j = k then (rs[j]?).map f else rs[j]? := by
  intro rs
  induction rs with
  | nil =>
    intro k j
    simp [listModify]
  | cons r l ih =>
    intro k j
    cases k with
    | zero =>
      cases j with
      | zero => simp [listModify]
      | succ j => simp [listModify]
    | succ k =>
      cases j with
      | zero => simp [listModify]
      | succ j =>
        simp only [listModify, List.getElem?_cons_succ, ih k j, Nat.succ_eq_add_one,
          Nat.add_right_cancel_iff]

theorem hitIndex_setSelectedFlag (p : QPointF) (b : Bool) :
    ∀ (rs : List Rectangle) (k : ℕ), hitIndex (setSelectedFlag rs k b) p = hitIndex rs p := by
  intro rs
  induction rs with
  | nil => intro k; rfl
  | cons r l ih =>
    intro k
    cases k with
    | zero => rfl
    | succ k =>
      show hitIndex (r :: setSelectedFlag l k b) p = hitIndex (r :: l) p
      unfold hitIndex
      rw [ih k]

/-- The inner corner probe of `press_corner_check`, on an optional
rectangle. -/
def cornerOf (o : Option Rectangle) (q : QPointF) : Option Corner :=
  match o with
  | none => none
  | some r => r.get_corner_at_point q 1

theorem press_corner_check_eq_cornerOf (st : ViewerState) (q : QPointF) (i : ℕ)
    (h : st.selected_rect = some i) :
    press_corner_check st q = cornerOf st.rectangles[i]? q := by
  unfold press_corner_check cornerOf
  rw [h]

theorem cornerOf_setSelectedFlag (rs : List Rectangle) (k i : ℕ) (b : Bool) (q : QPointF) :
    cornerOf (setSelectedFlag rs k b)[i]? q = cornerOf rs[i]? q := by
  unfold setSelectedFlag
  rw [listModify_getElem?]
  split_ifs with h
  · cases hri : rs[i]? with
    | none => rfl
    | some r => rfl
  · rfl

theorem mousePress_select_eq (st : ViewerState) (pos : ℤ × ℤ) (rgb : ℕ × ℕ × ℕ)
    (dims : ℕ × ℕ) (i : ℕ) (him : st.image = some dims) (hdm : st.draw_mode = false)
    (hcorner : press_corner_check st (toImagePos pos st.zoom_factor) = none)
    (hhit : hitIndex st.rectangles (toImagePos pos st.zoom_factor) = some i) :
    mousePress st pos .left rgb = pressSelect st (toImagePos pos st.zoom_factor) i := by
  unfold mousePress
  rw [him]
  dsimp only
  rw [hdm]
  norm_num
  rw [hcorner]
  dsimp only
  rw [hhit]

theorem mousePress_empty_eq (st : ViewerState) (pos : ℤ × ℤ) (rgb : ℕ × ℕ × ℕ)
    (dims : ℕ × ℕ) (him : st.image = some dims) (hdm : st.draw_mode = false)
    (hcorner : press_corner_check st (toImagePos pos st.zoom_factor) = none)
    (hhit : hitIndex st.rectangles (toImagePos pos st.zoom_factor) = none) :
    mousePress st pos .left rgb = pressEmpty st pos := by
  unfold mousePress
  rw [him]
  dsimp only
  rw [hdm]
  norm_num
  rw [hcorner]
  dsimp only
  rw [hhit]

theorem press_same_rect_twice (st : ViewerState) (p1 p2 : ℤ × ℤ) (rgb1 rgb2 : ℕ × ℕ × ℕ)
    (dims : ℕ × ℕ) (i : ℕ) (him : st.image = some dims) (hdm : st.draw_mode = false)
    (hc1 : press_corner_check st (toImagePos p1 st.zoom_factor) = none)
    (hh1 : hitIndex st.rectangles (toImagePos p1 st.zoom_factor) = some i)
    (hsel : ¬ st.selected_rect = some i)
    (hc2 : cornerOf st.rectangles[i]? (toImagePos p2 st.zoom_factor) = none)
    (hh2 : hitIndex st.rectangles (toImagePos p2 st.zoom_factor) = some i) :
    (mousePress (mousePress st p1 .left rgb1) p2 .left rgb2).emissions = st.emissions + 1 := by
  rw [mousePress_select_eq st p1 rgb1 dims i him hdm hc1 hh1]
  have h1sel : (pressSelect st (toImagePos p1 st.zoom_factor) i).selected_rect = some i := rfl
  have h1zoom : (pressSelect st (toImagePos p1 st.zoom_factor) i).zoom_factor = st.zoom_factor := rfl
  have h1img : (pressSelect st (toImagePos p1 st.zoom_factor) i).image = some dims := him
  have h1dm : (pressSelect st (toImagePos p1 st.zoom_factor) i).draw_mode = false := hdm
  have h1rects : (pressSelect st (toImagePos p1 st.zoom_factor) i).rectangles =
      setSelectedFlag (match st.selected_rect with
        | some j => setSelectedFlag st.rectangles j false
        | none => st.rectangles) i true := rfl
  have hc2' : press_corner_check (pressSelect st (toImagePos p1 st.zoom_factor) i)
      (toImagePos p2 (pressSelect st (toImagePos p1 st.zoom_factor) i).zoom_factor) = none := by
    rw [h1zoom, press_corner_check_eq_cornerOf _ _ i h1sel, h1rects, cornerOf_setSelectedFlag]
    cases hsel0 : st.selected_rect with
    | some j =>
      dsimp only
      rw [cornerOf_setSelectedFlag]
      exact hc2
    | none =>
      dsimp only
      exact hc2
  have hh2' : hitIndex (pressSelect st (toImagePos p1 st.zoom_factor) i).rectangles
      (toImagePos p2 (pressSelect st (toImagePos p1 st.zoom_factor) i).zoom_factor) = some i := by
    rw [h1zoom, h1rects, hitIndex_setSelectedFlag]
    cases hsel0 : st.selected_rect with
    | some j =>
      dsimp only
      rw [hitIndex_setSelectedFlag]
      exact hh2
    | none =>
      dsimp only
      exact hh2
  rw [mousePress_select_eq _ p2 rgb2 dims i h1img h1dm hc2' hh2']
  show (pressSelect st (toImagePos p1 st.zoom_factor) i).emissions
      + (if (pressSelect st (toImagePos p1 st.zoom_factor) i).selected_rect = some i then 0 else 1)
      = st.emissions + 1
  rw [h1sel, if_pos rfl]
  show st.emissions + (if st.selected_rect = some i then 0 else 1) + 0 = st.emissions + 1
  rw [if_neg hsel]

theorem press_empty_space_emissions (st : ViewerState) (pos : ℤ × ℤ) (rgb : ℕ × ℕ × ℕ)
    (dims : ℕ × ℕ) (him : st.image = some dims) (hdm : st.draw_mode = false)
    (hcorner : press_corner_check st (toImagePos pos st.zoom_factor) = none)
    (hhit : hitIndex st.rectangles (toImagePos pos st.zoom_factor) = none) :
    (mousePress st pos .left rgb).emissions =
      st.emissions + (if st.selected_rect.isSome then 1 else 0) := by
  rw [mousePress_empty_eq st pos rgb dims him hdm hcorner hhit]
  unfold pressEmpty
  cases hsel0 : st.selected_rect with
  | some j =>
    dsimp only
    simp
  | none =>
    dsimp only
    simp

theorem press_different_rect (st : ViewerState) (pos : ℤ × ℤ) (rgb : ℕ × ℕ × ℕ)
    (dims : ℕ × ℕ) (i j : ℕ) (him : st.image = some dims) (hdm : st.draw_mode = false)
    (hcorner : press_corner_check st (toImagePos pos st.zoom_factor) = none)
    (hhit : hitIndex st.rectangles (toImagePos pos st.zoom_factor) = some i)
    (hsel : st.selected_rect = some j) (hji : ¬ j = i) (hj : j < st.rectangles.length) :
    (mousePress st pos .left rgb).emissions = st.emissions + 1 ∧
      (mousePress st pos .left rgb).selected_rect = some i ∧
      ((mousePress st pos .left rgb).rectangles[j]?).map (fun r => r.selected) = some false := by
  rw [mousePress_select_eq st pos rgb dims i him hdm hcorner hhit]
  refine ⟨?_, rfl, ?_⟩
  · show st.emissions + (if st.selected_rect = some i then 0 else 1) = st.emissions + 1
    rw [if_neg (by simp [hsel, hji])]
  · show ((setSelectedFlag (match st.selected_rect with
        | some k => setSelectedFlag st.rectangles k false
        | none => st.rectangles) i true)[j]?).map (fun r => r.selected) = some false
    rw [hsel]
    dsimp only
    unfold setSelectedFlag
    rw [listModify_getElem?, if_neg hji, listModify_getElem?, if_pos rfl,
      List.getElem?_eq_getElem hj]
    rfl

/-- A loaded viewer with one 100-by-100 rectangle at the origin and no
selection, used to instantiate hypothesis-bearing theorems. -/
def oneRectState : ViewerState :=
  { baseState with rectangles := [Rectangle.init 0 0 100 100 (120, 130, 140)] }

/-- C8: (1) two consecutive left presses that select the same rectangle
(the first press actually performing the selection, i.e. the rectangle
was not already selected) emit exactly one change notification in
total: the second press is a notification no-op; (2) a press on empty
space emits a notification exactly when some rectangle was previously
selected; (3) a press that selects a different rectangle than the one
currently selected clears the previous rectangle's selected flag and
emits exactly one notification. -/
theorem selection_notification_discipline :
    (∀ (st : ViewerState) (p1 p2 : ℤ × ℤ) (rgb1 rgb2 : ℕ × ℕ × ℕ) (dims : ℕ × ℕ) (i : ℕ),
      st.image = some dims → st.draw_mode = false →
      press_corner_check st (toImagePos p1 st.zoom_factor) = none →
      hitIndex st.rectangles (toImagePos p1 st.zoom_factor) = some i →
      ¬ st.selected_rect = some i →
      cornerOf st.rectangles[i]? (toImagePos p2 st.zoom_factor) = none →
      hitIndex st.rectangles (toImagePos p2 st.zoom_factor) = some i →
      (mousePress (mousePress st p1 .left rgb1) p2 .left rgb2).emissions = st.emissions + 1) ∧
    (∀ (st : ViewerState) (pos : ℤ × ℤ) (rgb : ℕ × ℕ × ℕ) (dims : ℕ × ℕ),
      st.image = some dims → st.draw_mode = false →
      press_corner_check st (toImagePos pos st.zoom_factor) = none →
      hitIndex st.rectangles (toImagePos pos st.zoom_factor) = none →
      (mousePress st pos .left rgb).emissions =
        st.emissions + (if st.selected_rect.isSome then 1 else 0)) ∧
    (∀ (st : ViewerState) (pos : ℤ × ℤ) (rgb : ℕ × ℕ × ℕ) (dims : ℕ × ℕ) (i j : ℕ),
      st.image = some dims → st.draw_mode = false →
      press_corner_check st (toImagePos pos st.zoom_factor) = none →
      hitIndex st.rectangles (toImagePos pos st.zoom_factor) = some i →
      st.selected_rect = some j → ¬ j = i → j < st.rectangles.length →
      (mousePress st pos .left rgb).emissions = st.emissions + 1 ∧
        (mousePress st pos .left rgb).selected_rect = some i ∧
        ((mousePress st pos .left rgb).rectangles[j]?).map (fun r => r.selected) = some false) :=
  ⟨fun st p1 p2 rgb1 rgb2 dims i a b c d e f g =>
      press_same_rect_twice st p1 p2 rgb1 rgb2 dims i a b c d e f g,
   fun st pos rgb dims a b c d => press_empty_space_emissions st pos rgb dims a b c d,
   fun st pos rgb dims i j a b c d e f g => press_different_rect st pos rgb dims i j a b c d e f g⟩

theorem selection_notification_discipline_witness :
    (oneRectState.image = some (100, 100) ∧ oneRectState.draw_mode = false ∧
      press_corner_check oneRectState (toImagePos (50, 50) oneRectState.zoom_factor) = none ∧
      hitIndex oneRectState.rectangles (toImagePos (50, 50) oneRectState.zoom_factor) = some 0 ∧
      ¬ oneRectState.selected_rect = some 0 ∧
      cornerOf oneRectState.rectangles[0]? (toImagePos (50, 50) oneRectState.zoom_factor) = none) ∧
    (mousePress (mousePress oneRectState (50, 50) .left (1, 2, 3)) (50, 50) .left (4, 5, 6)).emissions
      = oneRectState.emissions + 1 :=
  ⟨⟨rfl, rfl, rfl,
    by
      norm_num [hitIndex, oneRectState, baseState, toImagePos, display_to_image, ratTrunc,
        Rectangle.contains_point, QRectF.containsPt, QRectF.axisContains, Rectangle.init],
    by simp [oneRectState, baseState],
    by
      norm_num [cornerOf, oneRectState, baseState, toImagePos, display_to_image, ratTrunc,
        Rectangle.get_corner_at_point, Rectangle.get_corner_rect, Rectangle.corner_size,
        QRectF.containsPt, QRectF.axisContains, QRectF.left, QRectF.top, QRectF.right,
        QRectF.bottom, Rectangle.init, List.find?]⟩,
   selection_notification_discipline.1 oneRectState (50, 50) (50, 50) (1, 2, 3) (4, 5, 6)
     (100, 100) 0 rfl rfl rfl
     (by
       norm_num [hitIndex, oneRectState, baseState, toImagePos, display_to_image, ratTrunc,
         Rectangle.contains_point, QRectF.containsPt, QRectF.axisContains, Rectangle.init])
     (by simp [oneRectState, baseState])
     (by
       norm_num [cornerOf, oneRectState, baseState, toImagePos, display_to_image, ratTrunc,
         Rectangle.get_corner_at_point, Rectangle.get_corner_rect, Rectangle.corner_size,
         QRectF.containsPt, QRectF.axisContains, QRectF.left, QRectF.top, QRectF.right,
         QRectF.bottom, Rectangle.init, List.find?])
     (by
       norm_num [hitIndex, oneRectState, baseState, toImagePos, display_to_image, ratTrunc,
         Rectangle.contains_point, QRectF.containsPt, QRectF.axisContains, Rectangle.init])⟩

/-- A just-cleared viewer in draw mode (cleared from a non-trivial
state, so the counter reset is exercised). -/
def drawState : ViewerState :=
  clear_all_rectangles
    { baseState with
      draw_mode := true
      rect_counter := 7
      rectangles := [Rectangle.init 1 1 30 30 (9, 9, 9)] }

/-- Press at (10,10), drag to (50,40), release — above the commit
threshold. -/
def bigDraw : ViewerState :=
  mouseRelease (mouseMove (mousePress drawState (10, 10) .left (7, 8, 9)) (50, 40)) .left

/-- Press at (10,10), drag to (12,11), release — width 2, height 1,
below the commit threshold. -/
def smallDraw : ViewerState :=
  mouseRelease (mouseMove (mousePress drawState (10, 10) .left (7, 8, 9)) (12, 11)) .left

theorem releaseDrag_id (st : ViewerState) (h : st.dragging_rect = false) : releaseDrag st = st := by
  unfold releaseDrag
  rw [h]
  norm_num

theorem releaseResize_id (st : ViewerState) (h : st.resizing_corner = none) : releaseResize st = st := by
  unfold releaseResize
  rw [h]

theorem releasePan_fields (st : ViewerState) :
    (releasePan st).rectangles = st.rectangles ∧ (releasePan st).rect_counter = st.rect_counter ∧
      (releasePan st).emissions = st.emissions := by
  unfold releasePan
  split_ifs <;> exact ⟨rfl, rfl, rfl⟩

theorem releaseDrawing_commit (st : ViewerState) (cr : Rectangle)
    (hdr : st.drawing_rect = true) (hcr : st.current_rect = some cr)
    (hsize : 5 < cr.rect.w ∧ 5 < cr.rect.h) :
    releaseDrawing st =
      { st with
        rectangles := st.rectangles ++ [{ cr with name := "Rectangle " ++ toString st.rect_counter }]
        rect_counter := st.rect_counter + 1
        emissions := st.emissions + 1
        drawing_rect := false
        current_rect := none
        rect_start_pos := none } := by
  unfold releaseDrawing
  rw [hdr, hcr]
  dsimp only
  rw [if_pos (by simp only [Bool.and_eq_true, decide_eq_true_eq]; exact hsize)]

theorem releaseDrawing_discard (st : ViewerState) (cr : Rectangle)
    (hdr : st.drawing_rect = true) (hcr : st.current_rect = some cr)
    (hsize : ¬ (5 < cr.rect.w ∧ 5 < cr.rect.h)) :
    releaseDrawing st =
      { st with drawing_rect := false, current_rect := none, rect_start_pos := none } := by
  unfold releaseDrawing
  rw [hdr, hcr]
  dsimp only
  rw [if_neg (by simp only [Bool.and_eq_true, decide_eq_true_eq]; exact hsize)]

theorem releaseChain_fields (st : ViewerState) (hdrag : st.dragging_rect = false)
    (hres : st.resizing_corner = none) :
    (releasePan (releaseResize (releaseDrag st))).rectangles = st.rectangles ∧
      (releasePan (releaseResize (releaseDrag st))).rect_counter = st.rect_counter ∧
      (releasePan (releaseResize (releaseDrag st))).emissions = st.emissions := by
  rw [releaseDrag_id st hdrag, releaseResize_id st hres]
  exact releasePan_fields st

theorem mouseRelease_commit_cases (st : ViewerState) (cr : Rectangle)
    (hdr : st.drawing_rect = true) (hcr : st.current_rect = some cr)
    (hdrag : st.dragging_rect = false) (hres : st.resizing_corner = none) :
    (5 < cr.rect.w ∧ 5 < cr.rect.h →
      (mouseRelease st .left).rectangles =
          st.rectangles ++ [{ cr with name := "Rectangle " ++ toString st.rect_counter }] ∧
        (mouseRelease st .left).rect_counter = st.rect_counter + 1 ∧
        (mouseRelease st .left).emissions = st.emissions + 1) ∧
    (¬ (5 < cr.rect.w ∧ 5 < cr.rect.h) →
      (mouseRelease st .left).rectangles = st.rectangles ∧
        (mouseRelease st .left).rect_counter = st.rect_counter ∧
        (mouseRelease st .left).emissions = st.emissions) := by
  have hrel : mouseRelease st .left = releasePan (releaseResize (releaseDrag (releaseDrawing st))) :=
    rfl
  constructor
  · intro hsize
    rw [hrel, releaseDrawing_commit st cr hdr hcr hsize]
    exact releaseChain_fields _ hdrag hres
  · intro hsize
    rw [hrel, releaseDrawing_discard st cr hdr hcr hsize]
    exact releaseChain_fields _ hdrag hres

/-- C7: a drawn rectangle is committed on left release exactly when
both extents exceed 5 image units: on commit it is appended with the
name "Rectangle {counter}", the counter is bumped and one notification
fires; otherwise it is discarded silently with no notification and no
counter change.  `clear_all_rectangles` resets the counter to 1 and
empties the set; deleting never changes the counter.  Concretely,
drawing (10,10)→(50,40) on a just-cleared set commits one rectangle
named "Rectangle 1" with bounds (10,10,40,30), while (10,10)→(12,11)
commits nothing. -/
theorem draw_commit_policy :
    (∀ (st : ViewerState) (cr : Rectangle),
      st.drawing_rect = true → st.current_rect = some cr →
      st.dragging_rect = false → st.resizing_corner = none →
      ((5 < cr.rect.w ∧ 5 < cr.rect.h →
          (mouseRelease st .left).rectangles =
              st.rectangles ++ [{ cr with name := "Rectangle " ++ toString st.rect_counter }] ∧
            (mouseRelease st .left).rect_counter = st.rect_counter + 1 ∧
            (mouseRelease st .left).emissions = st.emissions + 1) ∧
        (¬ (5 < cr.rect.w ∧ 5 < cr.rect.h) →
          (mouseRelease st .left).rectangles = st.rectangles ∧
            (mouseRelease st .left).rect_counter = st.rect_counter ∧
            (mouseRelease st .left).emissions = st.emissions))) ∧
    (∀ st : ViewerState, (clear_all_rectangles st).rect_counter = 1 ∧
      (clear_all_rectangles st).rectangles = [] ∧
      (clear_all_rectangles st).selected_rect = none) ∧
    (∀ st : ViewerState, (delete_selected_rectangle st).rect_counter = st.rect_counter) ∧
    (bigDraw.rectangles.map (fun r => r.name) = ["Rectangle 1"] ∧
      bigDraw.rectangles.map (fun r => r.rect) = [⟨10, 10, 40, 30⟩] ∧
      bigDraw.rect_counter = 2 ∧ smallDraw.rectangles = [] ∧ smallDraw.rect_counter = 1 ∧
      smallDraw.emissions = 0) := by
  refine ⟨fun st cr hdr hcr hdrag hres => mouseRelease_commit_cases st cr hdr hcr hdrag hres,
    fun st => ⟨rfl, rfl, rfl⟩, fun st => ?_, ?_, ?_, ?_, ?_, ?_, ?_⟩
  · unfold delete_selected_rectangle
    cases st.selected_rect <;> rfl
  · norm_num [bigDraw, drawState, baseState, clear_all_rectangles, mousePress, mouseMove,
      mouseRelease, moveDraw, moveResize, moveDrag, movePan, moveHover, releaseDrawing,
      releaseDrag, releaseResize, releasePan, toImagePos, display_to_image, ratTrunc,
      Rectangle.init, pressSelect, pressEmpty, press_corner_check, hitIndex]
    rfl
  all_goals
    norm_num [bigDraw, smallDraw, drawState, baseState, clear_all_rectangles, mousePress,
      mouseMove, mouseRelease, moveDraw, moveResize, moveDrag, movePan, moveHover,
      releaseDrawing, releaseDrag, releaseResize, releasePan, toImagePos, display_to_image,
      ratTrunc, Rectangle.init, pressSelect, pressEmpty, press_corner_check, hitIndex]

/-- A viewer mid-draw with an in-progress 40-by-30 rectangle, used to
instantiate hypothesis-bearing theorems. -/
def drawingState : ViewerState :=
  { baseState with
    draw_mode := true
    drawing_rect := true
    current_rect := some (Rectangle.init 10 10 40 30 (7, 8, 9))
    rect_start_pos := some ⟨10, 10⟩ }

theorem draw_commit_policy_witness :
    (drawingState.drawing_rect = true ∧
      drawingState.current_rect = some (Rectangle.init 10 10 40 30 (7, 8, 9)) ∧
      drawingState.dragging_rect = false ∧ drawingState.resizing_corner = none ∧
      ((5 : ℚ) < (Rectangle.init 10 10 40 30 (7, 8, 9)).rect.w ∧
        (5 : ℚ) < (Rectangle.init 10 10 40 30 (7, 8, 9)).rect.h)) ∧
    (mouseRelease drawingState .left).rect_counter = drawingState.rect_counter + 1 :=
  ⟨⟨rfl, rfl, rfl, rfl, by norm_num [Rectangle.init], by norm_num [Rectangle.init]⟩,
   ((draw_commit_policy.1 drawingState (Rectangle.init 10 10 40 30 (7, 8, 9))
       rfl rfl rfl rfl).1
     ⟨by norm_num [Rectangle.init], by norm_num [Rectangle.init]⟩).2.1⟩

theorem axisContains_le (o s c : ℚ) (hs : 0 < s)
    (h : QRectF.axisContains o s c = true) : o ≤ c ∧ c ≤ o + s := by
  have hneg : ¬ s < 0 := by linarith
  unfold QRectF.axisContains at h
  dsimp only at h
  rw [if_neg hneg, if_neg hneg] at h
  by_cases h1 : o = o + s
  · rw [if_pos h1] at h
    exact absurd h (by simp)
  · rw [if_neg h1] at h
    by_cases h2 : (decide (c < o) || decide (o + s < c)) = true
    · rw [if_pos h2] at h
      exact absurd h (by simp)
    · simp only [Bool.or_eq_true, decide_eq_true_eq] at h2
      push_neg at h2
      exact h2

theorem corner_box_bounds (cx cy s : ℚ) (q : QPointF) (hs : 0 < s)
    (h : QRectF.containsPt ⟨cx - s / 2, cy - s / 2, s, s⟩ q = true) :
    |q.x - cx| ≤ s / 2 ∧ |q.y - cy| ≤ s / 2 := by
  unfold QRectF.containsPt at h
  rw [Bool.and_eq_true] at h
  have hx := axisContains_le _ _ _ hs h.1
  have hy := axisContains_le _ _ _ hs h.2
  constructor <;> rw [abs_le] <;> constructor <;> linarith [hx.1, hx.2, hy.1, hy.2]

/-- The image-space coordinates of a rectangle corner. -/
def cornerPoint (r : Rectangle) (c : Corner) : ℚ × ℚ :=
  match c with
  | .top_left => (r.rect.left, r.rect.top)
  | .top_right => (r.rect.right, r.rect.top)
  | .bottom_left => (r.rect.left, r.rect.bottom)
  | .bottom_right => (r.rect.right, r.rect.bottom)

theorem press_corner_within_4 (st : ViewerState) (q : QPointF) (i : ℕ) (r : Rectangle)
    (c : Corner) (hsel : st.selected_rect = some i) (hr : st.rectangles[i]? = some r)
    (h : press_corner_check st q = some c) :
    |q.x - (cornerPoint r c).1| ≤ 4 ∧ |q.y - (cornerPoint r c).2| ≤ 4 := by
  rw [press_corner_check_eq_cornerOf st q i hsel, hr] at h
  unfold cornerOf at h
  dsimp only at h
  unfold Rectangle.get_corner_at_point at h
  have h2 : ((r.get_corner_rect c 1).containsPt q) = true := by
    have h3 := List.find?_some h
    simpa using h3
  have hrect : r.get_corner_rect c 1 =
      ⟨(cornerPoint r c).1 - 8 / 2, (cornerPoint r c).2 - 8 / 2, 8, 8⟩ := by
    cases c <;>
      simp [Rectangle.get_corner_rect, Rectangle.corner_size, cornerPoint]
  rw [hrect] at h2
  have hb := corner_box_bounds _ _ _ q (by norm_num) h2
  constructor
  · have := hb.1
    norm_num at this
    exact this
  · have := hb.2
    norm_num at this
    exact this

/-- A viewer at zoom factor 2 with one selected 100-by-100 rectangle at
the origin, exhibiting the corner-tolerance divergence. -/
def zoom2State : ViewerState :=
  { baseState with
    zoom_factor := 2
    rectangles := [{ Rectangle.init 0 0 100 100 (1, 2, 3) with selected := true }]
    selected_rect := some 0 }

/-- C3 counterexample: at zoom factor 2 (inside [0.1, 10]) the corner
check actually performed on press/hover — which passes the literal
`1.0` for the zoom — finds a corner at image point (3, 0), while the
spec's zoom-scaled tolerance (8 / zoom) does not: the two disagree. -/
theorem press_corner_tolerance_counterexample :
    ((1 / 10 : ℚ) ≤ zoom2State.zoom_factor ∧ zoom2State.zoom_factor ≤ 10) ∧
      press_corner_check zoom2State ⟨3, 0⟩ = some Corner.top_left ∧
      spec_corner_check zoom2State ⟨3, 0⟩ = none ∧
      ¬ press_corner_check zoom2State ⟨3, 0⟩ = spec_corner_check zoom2State ⟨3, 0⟩ := by
  have hp : press_corner_check zoom2State ⟨3, 0⟩ = some Corner.top_left := by
    norm_num [press_corner_check, zoom2State, baseState, Rectangle.get_corner_at_point,
      Rectangle.get_corner_rect, Rectangle.corner_size, QRectF.containsPt, QRectF.axisContains,
      QRectF.left, QRectF.top, QRectF.right, QRectF.bottom, Rectangle.init, List.find?]
  have hsp : spec_corner_check zoom2State ⟨3, 0⟩ = none := by
    norm_num [spec_corner_check, zoom2State, baseState, Rectangle.get_corner_at_point,
      Rectangle.get_corner_rect, Rectangle.corner_size, QRectF.containsPt, QRectF.axisContains,
      QRectF.left, QRectF.top, QRectF.right, QRectF.bottom, Rectangle.init, List.find?]
  refine ⟨⟨by norm_num [zoom2State, baseState], by norm_num [zoom2State, baseState]⟩, hp, hsp, ?_⟩
  rw [hp, hsp]
  simp

/-- C3 amended: the press/hover corner hit-test passes the literal
`1.0` as zoom argument, so its tolerance is the fixed image-space
handle square (side 8, half-size 4 around each corner), independent of
the current zoom factor; the clickable region is therefore constant in
image space, not in screen pixels. -/
theorem press_corner_tolerance_fixed :
    (∀ (st : ViewerState) (z : ℚ) (q : QPointF),
      press_corner_check { st with zoom_factor := z } q = press_corner_check st q) ∧
    (∀ (st : ViewerState) (q : QPointF) (i : ℕ) (r : Rectangle) (c : Corner),
      st.selected_rect = some i → st.rectangles[i]? = some r →
      press_corner_check st q = some c →
      |q.x - (cornerPoint r c).1| ≤ 4 ∧ |q.y - (cornerPoint r c).2| ≤ 4) :=
  ⟨fun _ _ _ => rfl,
   fun st q i r c hsel hr h => press_corner_within_4 st q i r c hsel hr h⟩

theorem press_corner_tolerance_fixed_witness :
    (zoom2State.selected_rect = some 0 ∧
      zoom2State.rectangles[0]? = some { Rectangle.init 0 0 100 100 (1, 2, 3) with selected := true } ∧
      press_corner_check zoom2State ⟨3, 0⟩ = some Corner.top_left) ∧
    (|(3 : ℚ) - (cornerPoint { Rectangle.init 0 0 100 100 (1, 2, 3) with selected := true } Corner.top_left).1| ≤ 4 ∧
      |(0 : ℚ) - (cornerPoint { Rectangle.init 0 0 100 100 (1, 2, 3) with selected := true } Corner.top_left).2| ≤ 4) :=
  ⟨⟨rfl, rfl,
    by
      norm_num [press_corner_check, zoom2State, baseState, Rectangle.get_corner_at_point,
        Rectangle.get_corner_rect, Rectangle.corner_size, QRectF.containsPt, QRectF.axisContains,
        QRectF.left, QRectF.top, QRectF.right, QRectF.bottom, Rectangle.init, List.find?]⟩,
   press_corner_tolerance_fixed.2 zoom2State ⟨3, 0⟩ 0
     { Rectangle.init 0 0 100 100 (1, 2, 3) with selected := true } Corner.top_left rfl rfl
     (by
       norm_num [press_corner_check, zoom2State, baseState, Rectangle.get_corner_at_point,
         Rectangle.get_corner_rect, Rectangle.corner_size, QRectF.containsPt, QRectF.axisContains,
         QRectF.left, QRectF.top, QRectF.right, QRectF.bottom, Rectangle.init, List.find?])⟩

/-- A viewer with one selected rectangle, for the panel-edit claims. -/
def selState : ViewerState :=
  { baseState with
    rectangles := [{ sampleRect with selected := true }]
    selected_rect := some 0 }

/-- C5 counterexample: entering x=0, y=0, width=3, height=3 in the
properties panel leaves the selected rectangle with bounds (0,0,3,3):
the minimum-size invariant `width >= 10` is not re-applied by
`on_coordinate_changed`. -/
theorem on_coordinate_changed_counterexample :
    (on_coordinate_changed selState (some 0) (some 0) (some 3) (some 3)).rectangles.map
        (fun r => r.rect) = [⟨0, 0, 3, 3⟩] ∧
      ¬ ((10 : ℚ) ≤ ((on_coordinate_changed selState (some 0) (some 0) (some 3)
        (some 3)).rectangles.map (fun r => r.rect.w)).headI) := by
  constructor
  · norm_num [on_coordinate_changed, selState, baseState, sampleRect, Rectangle.init, listModify]
  · norm_num [on_coordinate_changed, selState, baseState, sampleRect, Rectangle.init, listModify]

/-- C5 amended: a panel bounds edit with all four fields parseable sets
the selected rectangle's bounds verbatim from the fields — no
minimum-size clamping — leaves every other rectangle untouched, and
emits no `rectangles_changed` notification (the list refresh is called
directly). -/
theorem on_coordinate_changed_sets_bounds_verbatim (st : ViewerState) (i : ℕ) (x y w h : ℚ)
    (hsel : st.selected_rect = some i) (hi : i < st.rectangles.length) :
    ((on_coordinate_changed st (some x) (some y) (some w) (some h)).rectangles[i]?).map
        (fun r => r.rect) = some ⟨x, y, w, h⟩ ∧
      (∀ j, ¬ j = i →
        (on_coordinate_changed st (some x) (some y) (some w) (some h)).rectangles[j]?
          = st.rectangles[j]?) ∧
      (on_coordinate_changed st (some x) (some y) (some w) (some h)).emissions = st.emissions := by
  unfold on_coordinate_changed
  rw [hsel]
  dsimp only
  refine ⟨?_, ?_, rfl⟩
  · rw [listModify_getElem?, if_pos rfl, List.getElem?_eq_getElem hi]
    rfl
  · intro j hj
    rw [listModify_getElem?, if_neg hj]

theorem on_coordinate_changed_sets_bounds_verbatim_witness :
    (selState.selected_rect = some 0 ∧ 0 < selState.rectangles.length) ∧
      ((on_coordinate_changed selState (some 5) (some 6) (some 3) (some 3)).rectangles[0]?).map
        (fun r => r.rect) = some ⟨5, 6, 3, 3⟩ :=
  ⟨⟨rfl, by simp [selState, baseState]⟩,
   (on_coordinate_changed_sets_bounds_verbatim selState 0 5 6 3 3 rfl
     (by simp [selState, baseState])).1⟩
